import Mathlib

/-!
Shallow embedding of `process_pdfs.py` (PDF outline extractor) and proofs of
the specification's claims about it.

Text spans carry the text, a font size (modelled as a rational number), the
raw font flags, and a 1-based page number.  Regular expressions from the
source are rendered as explicit character-list matchers; all of them are
anchored at the start (Python `re.match`) and the library patterns are also
anchored at the end.  Python's `re.IGNORECASE` flag is modelled by accepting
both cases of ASCII letters.
-/

namespace PdfOutline

/-- Python whitespace characters recognised by `\s` and `str.strip`. -/
def pyIsSpace (c : Char) : Bool :=
  c = ' ' || c = '\t' || c = '\n' || c = '\x0d' || c = '\x0b' || c = '\x0c'

/-- `str.strip()` on a character list: drop whitespace from both ends. -/
def pyStripList (cs : List Char) : List Char :=
  ((cs.dropWhile pyIsSpace).reverse.dropWhile pyIsSpace).reverse

/-- `str.strip()` on a string. -/
def pyStrip (s : String) : String :=
  String.mk (pyStripList s.toList)

/-- ASCII letter, as matched by `[A-Z]` / `[a-z]` under `re.IGNORECASE`. -/
def isAsciiLetter (c : Char) : Bool :=
  ('A' ≤ c && c ≤ 'Z') || ('a' ≤ c && c ≤ 'z')

/-- Characters of the class `[IVX]` under `re.IGNORECASE`. -/
def isRomanChar (c : Char) : Bool :=
  c = 'I' || c = 'V' || c = 'X' || c = 'i' || c = 'v' || c = 'x'

/-- Consume one or more characters satisfying `p` (greedy `p+`). -/
def chomp1 (p : Char → Bool) : List Char → Option (List Char)
  | c :: cs => if p c then some (cs.dropWhile p) else none
  | [] => none

/-- Consume an optional single character `c` (the regex `c?`). -/
def chompOpt (c : Char) : List Char → List Char
  | d :: cs => if d = c then cs else d :: cs
  | [] => []

/-- Consume exactly the character `c` (case-sensitive). -/
def chompChar (c : Char) : List Char → Option (List Char)
  | d :: cs => if d = c then some cs else none
  | [] => none

/-- Consume exactly one character of the class `p`. -/
def chompOne (p : Char → Bool) : List Char → Option (List Char)
  | c :: cs => if p c then some cs else none
  | [] => none

/-- Consume a literal word, case-insensitively (ASCII). -/
def chompLitCI : List Char → List Char → Option (List Char)
  | [], cs => some cs
  | l :: ls, c :: cs => if l.toLower = c.toLower then chompLitCI ls cs else none
  | _ :: _, [] => none

/-- `[^.!?]*?$`: the remaining characters contain no sentence terminator. -/
def tailNoSentencePunct (cs : List Char) : Bool :=
  cs.all (fun c => !(c = '.' || c = '!' || c = '?'))

/-- `^(\d+\.?\s+[A-Z][^.!?]*?)$` (pattern 1, "1. Introduction"). -/
def patNum1 (cs : List Char) : Bool :=
  (do
    let cs ← chomp1 Char.isDigit cs
    let cs := chompOpt '.' cs
    let cs ← chomp1 pyIsSpace cs
    let cs ← chompOne isAsciiLetter cs
    pure (tailNoSentencePunct cs)).getD false

/-- `^(\d+\.\d+\.?\s+[A-Z][^.!?]*?)$` (pattern 2, "1.1 Background"). -/
def patNum2 (cs : List Char) : Bool :=
  (do
    let cs ← chomp1 Char.isDigit cs
    let cs ← chompChar '.' cs
    let cs ← chomp1 Char.isDigit cs
    let cs := chompOpt '.' cs
    let cs ← chomp1 pyIsSpace cs
    let cs ← chompOne isAsciiLetter cs
    pure (tailNoSentencePunct cs)).getD false

/-- `^(\d+\.\d+\.\d+\.?\s+[A-Z][^.!?]*?)$` (pattern 3, "1.1.1 Details"). -/
def patNum3 (cs : List Char) : Bool :=
  (do
    let cs ← chomp1 Char.isDigit cs
    let cs ← chompChar '.' cs
    let cs ← chomp1 Char.isDigit cs
    let cs ← chompChar '.' cs
    let cs ← chomp1 Char.isDigit cs
    let cs := chompOpt '.' cs
    let cs ← chomp1 pyIsSpace cs
    let cs ← chompOne isAsciiLetter cs
    pure (tailNoSentencePunct cs)).getD false

/-- `^([IVX]+\.?\s+[A-Z][^.!?]*?)$` (pattern 4, roman numerals). -/
def patRoman (cs : List Char) : Bool :=
  (do
    let cs ← chomp1 isRomanChar cs
    let cs := chompOpt '.' cs
    let cs ← chomp1 pyIsSpace cs
    let cs ← chompOne isAsciiLetter cs
    pure (tailNoSentencePunct cs)).getD false

/-- `^([A-Z]\.?\s+[A-Z][^.!?]*?)$` (pattern 5, "A. Section"). -/
def patLetter (cs : List Char) : Bool :=
  (do
    let cs ← chompOne isAsciiLetter cs
    let cs := chompOpt '.' cs
    let cs ← chomp1 pyIsSpace cs
    let cs ← chompOne isAsciiLetter cs
    pure (tailNoSentencePunct cs)).getD false

/-- `^(Chapter\s+\d+[:\s]+[A-Z][^.!?]*?)$` (pattern 6). -/
def patChapter (cs : List Char) : Bool :=
  (do
    let cs ← chompLitCI "Chapter".toList cs
    let cs ← chomp1 pyIsSpace cs
    let cs ← chomp1 Char.isDigit cs
    let cs ← chomp1 (fun c => c = ':' || pyIsSpace c) cs
    let cs ← chompOne isAsciiLetter cs
    pure (tailNoSentencePunct cs)).getD false

/-- `^(Section\s+\d+[:\s]+[A-Z][^.!?]*?)$` (pattern 7). -/
def patSection (cs : List Char) : Bool :=
  (do
    let cs ← chompLitCI "Section".toList cs
    let cs ← chomp1 pyIsSpace cs
    let cs ← chomp1 Char.isDigit cs
    let cs ← chomp1 (fun c => c = ':' || pyIsSpace c) cs
    let cs ← chompOne isAsciiLetter cs
    pure (tailNoSentencePunct cs)).getD false

/-- `^([A-Z\s]{3,30})$` (pattern 8, all-caps line; under `re.IGNORECASE`
the class also accepts lowercase ASCII letters). -/
def patAllCaps (cs : List Char) : Bool :=
  cs.all (fun c => isAsciiLetter c || pyIsSpace c) &&
    3 ≤ cs.length && cs.length ≤ 30

/-- `^([A-Z][a-z]+(?:\s+[A-Z][a-z]+)*(?:\s+[a-z]+)*)$` (pattern 9, title
case).  Under `re.IGNORECASE` this accepts exactly the strings consisting of
ASCII letters and whitespace that start with two letters and end with a
letter: the first word must have at least two letters, and the trailing
`(?:\s+[a-z]+)*` group accepts any further whitespace-separated words. -/
def patTitleCase (cs : List Char) : Bool :=
  cs.all (fun c => isAsciiLetter c || pyIsSpace c) &&
    (match cs with
     | a :: b :: _ => isAsciiLetter a && isAsciiLetter b
     | _ => false) &&
    (match cs.getLast? with
     | some c => isAsciiLetter c
     | none => false)

/-- `heading_patterns[:6]`: the six "numbering" matchers used to override the
sentence-punctuation exclusion. -/
def headingPatternsSix (cs : List Char) : Bool :=
  patNum1 cs || patNum2 cs || patNum3 cs || patRoman cs || patLetter cs ||
    patChapter cs

/-- The full pattern library (all nine matchers). -/
def headingPatternsAll (cs : List Char) : Bool :=
  headingPatternsSix cs || patSection cs || patAllCaps cs || patTitleCase cs

/-! ## Data model -/

/-- A text span surfaced by the external parser (`extract_text_with_fonts`):
text, font size, raw font flags, 1-based page.  The bounding box and font
name are never consulted by the outline logic and are omitted. -/
structure TextSpan where
  text : String
  size : Rat
  flags : Nat
  page : Nat
deriving DecidableEq, Repr

/-- One heading of the final outline: `{"level": .., "text": .., "page": ..}`. -/
structure Heading where
  level : String
  text : String
  page : Nat
deriving DecidableEq, Repr, Inhabited

/-- The final per-document record `{"title": .., "outline": [..]}`. -/
structure OutlineRecord where
  title : String
  outline : List Heading
deriving DecidableEq, Repr

/-- An embedded table-of-contents entry `(level, text, page)` as returned by
`doc.get_toc()`. -/
structure TocEntry where
  level : Nat
  text : String
  page : Nat
deriving DecidableEq, Repr

/-- A successfully opened document, as seen by `extract_outline`: the
embedded outline, the parsed text spans, and the metadata title (`none` when
the metadata has no usable title entry). -/
structure Doc where
  toc : List TocEntry
  spans : List TextSpan
  metaTitle : Option String
deriving DecidableEq, Repr

/-- Python truthiness of a string: `""` is falsy. -/
def strTruthy (s : String) : Bool := !(s == "")

/-- Python truthiness of an optional string: `None` and `""` are falsy. -/
def optTruthy : Option String → Bool
  | none => false
  | some s => strTruthy s

/-- Python `s or "Document"`. -/
def strOr (s fallback : String) : String :=
  if strTruthy s then s else fallback

/-! ## Heading candidate detector -/

/-- `is_bold`: bit 4 of the span flags. -/
def isBoldFlags (flags : Nat) : Bool := flags.testBit 4

/-- `text.endswith(('.', '!', '?', ',', ';', ':'))`. -/
def endsSentencePunct (cs : List Char) : Bool :=
  match cs.getLast? with
  | some c => c = '.' || c = '!' || c = '?' || c = ',' || c = ';' || c = ':'
  | none => false

/-- `is_likely_heading(text, size, flags, avg_size)`. -/
def isLikelyHeading (text : String) (size : Rat) (flags : Nat)
    (avgSize : Rat) : Bool :=
  let cs := pyStripList text.toList
  if cs.length < 3 || 200 < cs.length then false
  else if endsSentencePunct cs && !headingPatternsSix cs then false
  else
    let sizeBased := decide (avgSize * (11 / 10) < size)
    let boldText := isBoldFlags flags
    let patternMatch := headingPatternsAll cs
    (sizeBased && boldText) || patternMatch ||
      decide (avgSize * (13 / 10) < size)

/-! ## Level classifier -/

/-- `^\d+\.` as a start-of-string match (used by `_looks_like_title`). -/
def preDigitsDot (cs : List Char) : Bool :=
  ((chomp1 Char.isDigit cs).bind (chompChar '.')).isSome

/-- `^\d+\.\d+` as a start-of-string match (rank-mode title exclusion). -/
def preDigitsDotDigits (cs : List Char) : Bool :=
  (((chomp1 Char.isDigit cs).bind (chompChar '.')).bind
    (chomp1 Char.isDigit)).isSome

/-- `text.startswith(lit)` (case-sensitive literal). -/
def startsWithLit : List Char → List Char → Bool
  | [], _ => true
  | _ :: _, [] => false
  | l :: ls, c :: cs => l = c && startsWithLit ls cs

/-- Auxiliary counter for `len(text.split())`: the boolean records whether
the previous character was inside a word. -/
def countWordsAux : List Char → Bool → Nat
  | [], _ => 0
  | c :: cs, inWord =>
    if pyIsSpace c then countWordsAux cs false
    else (if inWord then 0 else 1) + countWordsAux cs true

/-- `len(text.split())`: number of maximal non-whitespace runs. -/
def countWords (cs : List Char) : Nat := countWordsAux cs false

/-- `_looks_like_title`: at most 10 words, no `^\d+\.` prefix, and no
`Chapter`/`Section`/`Part` literal prefix. -/
def looksLikeTitle (cs : List Char) : Bool :=
  countWords cs ≤ 10 && !preDigitsDot cs &&
    !(startsWithLit "Chapter".toList cs || startsWithLit "Section".toList cs ||
      startsWithLit "Part".toList cs)

/-- The inline title check of the rank-based branch: at most 10 words, none
of the literal prefixes `1.`, `2.`, `3.`, `Chapter`, `Section`, and no
`^\d+\.\d+` prefix. -/
def rankTitleCheck (cs : List Char) : Bool :=
  countWords cs ≤ 10 &&
    !(startsWithLit "1.".toList cs || startsWithLit "2.".toList cs ||
      startsWithLit "3.".toList cs || startsWithLit "Chapter".toList cs ||
      startsWithLit "Section".toList cs) &&
    !preDigitsDotDigits cs

/-- `^\d+\.?\s+` start-of-string match. -/
def preH1Num (cs : List Char) : Bool :=
  (((chomp1 Char.isDigit cs).map (chompOpt '.')).bind
    (chomp1 pyIsSpace)).isSome

/-- `^[IVX]+\.?\s+` start-of-string match (case-insensitive). -/
def preH1Roman (cs : List Char) : Bool :=
  (((chomp1 isRomanChar cs).map (chompOpt '.')).bind
    (chomp1 pyIsSpace)).isSome

/-- `^Chapter\s+\d+` start-of-string match (case-insensitive). -/
def preH1Chapter (cs : List Char) : Bool :=
  (((chompLitCI "Chapter".toList cs).bind (chomp1 pyIsSpace)).bind
    (chomp1 Char.isDigit)).isSome

/-- `^Part\s+[A-Z]` start-of-string match (case-insensitive). -/
def preH1Part (cs : List Char) : Bool :=
  (((chompLitCI "Part".toList cs).bind (chomp1 pyIsSpace)).bind
    (chompOne isAsciiLetter)).isSome

/-- `^[A-Z\s]{5,}$` (case-insensitive): whole string of letters and
whitespace, length at least 5. -/
def patAllCaps5 (cs : List Char) : Bool :=
  cs.all (fun c => isAsciiLetter c || pyIsSpace c) && 5 ≤ cs.length

/-- `_looks_like_h1`. -/
def looksLikeH1 (cs : List Char) : Bool :=
  preH1Num cs || preH1Roman cs || preH1Chapter cs || preH1Part cs ||
    patAllCaps5 cs

/-- `^\d+\.\d+\.?\s+` start-of-string match. -/
def preH2Num (cs : List Char) : Bool :=
  (((((chomp1 Char.isDigit cs).bind (chompChar '.')).bind
    (chomp1 Char.isDigit)).map (chompOpt '.')).bind (chomp1 pyIsSpace)).isSome

/-- `^[A-Z]\.?\s+` start-of-string match (case-insensitive). -/
def preH2Letter (cs : List Char) : Bool :=
  (((chompOne isAsciiLetter cs).map (chompOpt '.')).bind
    (chomp1 pyIsSpace)).isSome

/-- `_looks_like_h2`. -/
def looksLikeH2 (cs : List Char) : Bool :=
  preH2Num cs || preH2Letter cs

/-- `^\d+\.\d+\.\d+\.?\s+` start-of-string match. -/
def preH3Num (cs : List Char) : Bool :=
  (((((((chomp1 Char.isDigit cs).bind (chompChar '.')).bind
    (chomp1 Char.isDigit)).bind (chompChar '.')).bind
    (chomp1 Char.isDigit)).map (chompOpt '.')).bind (chomp1 pyIsSpace)).isSome

/-- `^\([a-z]\)\s+` start-of-string match (case-insensitive). -/
def preH3Paren (cs : List Char) : Bool :=
  ((((chompChar '(' cs).bind (chompOne isAsciiLetter)).bind
    (chompChar ')')).bind (chomp1 pyIsSpace)).isSome

/-- `^\d+\)\s+` start-of-string match. -/
def preH3NumParen (cs : List Char) : Bool :=
  (((chomp1 Char.isDigit cs).bind (chompChar ')')).bind
    (chomp1 pyIsSpace)).isSome

/-- `_looks_like_h3`. -/
def looksLikeH3 (cs : List Char) : Bool :=
  preH3Num cs || preH3Paren cs || preH3NumParen cs

/-- `sorted(set(all_sizes), reverse=True)`: the distinct sizes in
descending order.  (`insertionSort` is used because on a list of distinct
values every sort computes the same descending enumeration.) -/
def uniqueSizesDesc (allSizes : List Rat) : List Rat :=
  List.insertionSort (fun a b => b ≤ a) allSizes.dedup

/-- `classify_heading_level(text, size, all_sizes)`.  The sequential
early-return `if` blocks of the source are rendered as an `if`-chain; the
thresholds are the extractor's fixed configuration (16.0 / 14.0 / 12.0 /
11.0). -/
def classifyHeadingLevel (text : String) (size : Rat)
    (allSizes : List Rat) : Option String :=
  let cs := pyStripList text.toList
  let uniq := uniqueSizesDesc allSizes
  if 3 ≤ uniq.length then
    if decide (uniq.getD 0 0 ≤ size) && decide ((16 : Rat) ≤ size) &&
        rankTitleCheck cs then some "TITLE"
    else if (decide (uniq.getD 1 0 ≤ size) || decide ((14 : Rat) ≤ size)) &&
        looksLikeH1 cs then some "H1"
    else if 2 < uniq.length &&
        (decide (uniq.getD 2 0 ≤ size) || decide ((12 : Rat) ≤ size)) &&
        looksLikeH2 cs then some "H2"
    else if decide ((11 : Rat) ≤ size) && looksLikeH3 cs then some "H3"
    else none
  else
    if decide ((16 : Rat) ≤ size) && looksLikeTitle cs then some "TITLE"
    else if decide ((14 : Rat) ≤ size) && looksLikeH1 cs then some "H1"
    else if decide ((12 : Rat) ≤ size) && looksLikeH2 cs then some "H2"
    else if decide ((11 : Rat) ≤ size) && looksLikeH3 cs then some "H3"
    else none

/-! ## ToC normalizer (`_process_toc`) -/

/-- The level mapping of `_process_toc`: `1→H1, 2→H2, 3→H3`, anything else
is skipped (`continue`). -/
def tocMapLevel : Nat → Option String
  | 1 => some "H1"
  | 2 => some "H2"
  | 3 => some "H3"
  | _ => none

/-- The `for item in toc` loop of `_process_toc`, threading the optional
title and producing the appended outline entries in order. -/
def tocLoop : Option String → List TocEntry → Option String × List Heading
  | tOpt, [] => (tOpt, [])
  | tOpt, e :: rest =>
    match tocMapLevel e.level with
    | none => tocLoop tOpt rest
    | some hl =>
      let tx := pyStrip e.text
      if strTruthy tx then
        if !optTruthy tOpt && e.level == 1 then tocLoop (some tx) rest
        else
          let st := tocLoop tOpt rest
          (st.1, ⟨hl, tx, e.page⟩ :: st.2)
      else tocLoop tOpt rest

/-- `_process_toc(toc, doc)`: run the loop, then resolve the title from the
metadata and possibly promote the first H1 outline entry. -/
def processToc (toc : List TocEntry) (metaTitle : Option String) :
    OutlineRecord :=
  let st := tocLoop none toc
  let res :=
    if optTruthy st.1 then (st.1.getD "", st.2)
    else
      let t := metaTitle.getD "Document"
      if !strTruthy t || t == "Document" then
        match st.2 with
        | h :: rest => if h.level == "H1" then (h.text, rest) else (t, st.2)
        | [] => (t, st.2)
      else (t, st.2)
  ⟨strOr res.1 "Document", res.2⟩

/-! ## Heuristic path (`extract_outline`, fallback branch) -/

/-- The `for item in text_data` loop of `extract_outline`: detector, then
classifier; a first `TITLE` hit is captured as the title, `H1`/`H2`/`H3`
hits are appended in order, and anything else is dropped. -/
def spanLoop (avgSize : Rat) (allSizes : List Rat) :
    Option String → List TextSpan → Option String × List Heading
  | tOpt, [] => (tOpt, [])
  | tOpt, s :: rest =>
    if isLikelyHeading s.text s.size s.flags avgSize then
      match classifyHeadingLevel s.text s.size allSizes with
      | some lvl =>
        if lvl == "TITLE" && !optTruthy tOpt then
          spanLoop avgSize allSizes (some s.text) rest
        else if ["H1", "H2", "H3"].contains lvl then
          let st := spanLoop avgSize allSizes tOpt rest
          (st.1, ⟨lvl, s.text, s.page⟩ :: st.2)
        else spanLoop avgSize allSizes tOpt rest
      | none => spanLoop avgSize allSizes tOpt rest
    else spanLoop avgSize allSizes tOpt rest

/-- The span-loop state for a span list: sizes and mean size are computed
exactly as in the source (`sum(sizes)/len(sizes) if sizes else 12.0`). -/
def heuristicState (spans : List TextSpan) : Option String × List Heading :=
  let sizes := spans.map (fun s => s.size)
  let avgSize : Rat :=
    if sizes.isEmpty then 12 else sizes.sum / (sizes.length : Rat)
  spanLoop avgSize sizes none spans

/-- `headings.sort(key=lambda x: x["page"])`: Python's sort is stable, and a
stable sort on the page key is a unique function of its input, so it is
modelled by the stable `List.insertionSort` on the page key. -/
def sortByPage (hs : List Heading) : List Heading :=
  List.insertionSort (fun a b => a.page ≤ b.page) hs

/-- The heuristic branch of `extract_outline`, after the span loop: resolve
the title (first `TITLE` hit, else first `H1` hit with deduplication, else
the filename stem) and sort the headings by page. -/
def heuristicRecord (spans : List TextSpan) (stem : String) : OutlineRecord :=
  let st := heuristicState spans
  if optTruthy st.1 then ⟨st.1.getD "", sortByPage st.2⟩
  else
    match st.2.filter (fun h => h.level == "H1") with
    | h0 :: _ =>
      ⟨h0.text,
        sortByPage (st.2.filter
          (fun h => !(h.level == "H1" && h.text == h0.text)))⟩
    | [] => ⟨stem, sortByPage st.2⟩

/-- `extract_outline` on a successfully opened document: a non-empty
embedded outline is delegated to `_process_toc`; with no text spans the
fallback record is emitted; otherwise the heuristic path runs. -/
def extractOutline (d : Doc) (stem : String) : OutlineRecord :=
  if !d.toc.isEmpty then processToc d.toc d.metaTitle
  else if d.spans.isEmpty then ⟨stem, []⟩
  else heuristicRecord d.spans stem

/-- `extract_outline` including its `except` branch: a document that cannot
be opened (or whose processing raises) yields the fallback record
`{"title": stem, "outline": []}`. -/
def extractOutlineTop : Except Unit Doc → String → OutlineRecord
  | .error _, stem => ⟨stem, []⟩
  | .ok d, stem => extractOutline d stem

/-- `process_pdfs`: every discovered file is processed; each one yields
exactly one output record (failures produce the fallback record and the
batch continues). -/
def processPdfs (files : List (String × Except Unit Doc)) :
    List (String × OutlineRecord) :=
  files.map (fun f => (f.1, extractOutlineTop f.2 f.1))

/-! ## Spec-side renderings (for the ToC refinement claim) -/

/-- From the spec: the title captured by the ToC normalizer is the first
entry with `level == 1` and non-empty trimmed text. -/
def specTocTitle (toc : List TocEntry) : Option String :=
  (toc.find? (fun e => e.level == 1 && strTruthy (pyStrip e.text))).map
    (fun e => pyStrip e.text)

/-- From the spec: the ToC outline maps surviving entries (levels 1–3 with
non-empty trimmed text) to headings, consuming the first level-1 entry as
the title instead of appending it; the flag records whether the title has
already been taken. -/
def specTocOutline : Bool → List TocEntry → List Heading
  | _, [] => []
  | taken, e :: rest =>
    match tocMapLevel e.level with
    | none => specTocOutline taken rest
    | some hl =>
      let tx := pyStrip e.text
      if tx == "" then specTocOutline taken rest
      else if !taken && e.level == 1 then specTocOutline true rest
      else ⟨hl, tx, e.page⟩ :: specTocOutline taken rest

/-! ## Auxiliary definitions used by the statements -/

/-- The heuristic headings that survive title resolution (the list that
`extract_outline` sorts by page just before returning). -/
def survivingHeadings (spans : List TextSpan) : List Heading :=
  let st := heuristicState spans
  if optTruthy st.1 then st.2
  else
    match st.2.filter (fun h => h.level == "H1") with
    | h0 :: _ => st.2.filter (fun h => !(h.level == "H1" && h.text == h0.text))
    | [] => st.2

instance : IsTotal Heading (fun a b => a.page ≤ b.page) :=
  ⟨fun a b => Nat.le_total a.page b.page⟩

instance : IsTrans Heading (fun a b => a.page ≤ b.page) :=
  ⟨fun _ _ _ hab hbc => Nat.le_trans hab hbc⟩

/-- Concrete spans: two identical H1 candidates (`"1. Scope"` on pages 1 and
2, size 14 against body size 10) and no TITLE candidate. -/
def spansC6 : List TextSpan :=
  [⟨"1. Scope", 14, 16, 1⟩, ⟨"1. Scope", 14, 0, 2⟩,
   ⟨"just some body text here.", 10, 0, 1⟩,
   ⟨"just some body text here.", 10, 0, 1⟩,
   ⟨"just some body text here.", 10, 0, 1⟩,
   ⟨"just some body text here.", 10, 0, 1⟩]

/-! ## Helper lemmas -/

attribute [local semireducible] Rat.add Rat.mul Rat.inv Rat.sub

theorem mem_sortByPage {hs : List Heading} {x : Heading} :
    x ∈ sortByPage hs ↔ x ∈ hs :=
  List.mem_insertionSort _

theorem sorted_sortByPage (hs : List Heading) :
    List.Pairwise (fun a b => a.page ≤ b.page) (sortByPage hs) :=
  List.sorted_insertionSort _ hs

theorem filter_page_mem {hs : List Heading} {p : Nat} {x : Heading}
    (hx : x ∈ hs.filter (fun h => h.page == p)) : x.page = p := by
  simpa using List.of_mem_filter hx

theorem filter_sortByPage (hs : List Heading) (p : Nat) :
    (sortByPage hs).filter (fun h => h.page == p) =
      hs.filter (fun h => h.page == p) := by
  have hpw : (hs.filter (fun h => h.page == p)).Pairwise
      (fun a b : Heading => a.page ≤ b.page) := by
    refine List.pairwise_of_forall_mem_list (fun a ha b hb => ?_)
    rw [filter_page_mem ha, filter_page_mem hb]
  have h1 : List.Sublist (hs.filter (fun h => h.page == p)) (sortByPage hs) :=
    List.sublist_insertionSort hpw (List.filter_sublist hs)
  have h2 : List.Sublist (hs.filter (fun h => h.page == p))
      ((sortByPage hs).filter (fun h => h.page == p)) := by
    have h3 := h1.filter (fun h => h.page == p)
    rwa [List.filter_eq_self.mpr
      (fun a ha => (List.mem_filter.mp ha).2)] at h3
  have hperm : List.Perm ((sortByPage hs).filter (fun h => h.page == p))
      (hs.filter (fun h => h.page == p)) :=
    (List.perm_insertionSort _ hs).filter _
  exact (h2.eq_of_length hperm.length_eq.symm).symm

theorem heuristicRecord_outline (spans : List TextSpan) (stem : String) :
    (heuristicRecord spans stem).outline = sortByPage (survivingHeadings spans) := by
  unfold heuristicRecord survivingHeadings
  cases h : optTruthy (heuristicState spans).1
  · cases hf : (heuristicState spans).2.filter (fun h => h.level == "H1") <;>
      simp [h, hf]
  · simp [h]

theorem beq_one_false_of_tocMapLevel_none {n : Nat}
    (h : tocMapLevel n = none) : (n == 1) = false := by
  by_cases hn : n = 1
  · subst hn; simp [tocMapLevel] at h
  · simp [hn]

theorem tocLoop_of_title (t : String) (ht : strTruthy t = true)
    (toc : List TocEntry) :
    tocLoop (some t) toc = (some t, specTocOutline true toc) := by
  induction toc with
  | nil => rfl
  | cons e rest ih =>
    have hopt : optTruthy (some t) = true := ht
    simp only [tocLoop, specTocOutline]
    cases hm : tocMapLevel e.level with
    | none => exact ih
    | some hl =>
      cases hx : strTruthy (pyStrip e.text)
      · have : (pyStrip e.text == "") = true := by
          simpa [strTruthy] using hx
        simp [hx, this, ih]
      · have : (pyStrip e.text == "") = false := by
          simpa [strTruthy] using hx
        simp [hx, this, hopt, ih]

theorem tocLoop_none_eq (toc : List TocEntry) :
    tocLoop none toc = (specTocTitle toc, specTocOutline false toc) := by
  induction toc with
  | nil => rfl
  | cons e rest ih =>
    simp only [tocLoop, specTocOutline]
    cases hm : tocMapLevel e.level with
    | none =>
      have h1 : (e.level == 1) = false := beq_one_false_of_tocMapLevel_none hm
      have hfind : specTocTitle (e :: rest) = specTocTitle rest := by
        unfold specTocTitle
        rw [List.find?_cons_of_neg]
        simp [h1]
      rw [hfind]
      exact ih
    | some hl =>
      cases hx : strTruthy (pyStrip e.text)
      · have hxe : (pyStrip e.text == "") = true := by
          simpa [strTruthy] using hx
        have hfind : specTocTitle (e :: rest) = specTocTitle rest := by
          unfold specTocTitle
          rw [List.find?_cons_of_neg]
          simp [hx]
        simp [hx, hxe, hfind, ih]
      · have hxe : (pyStrip e.text == "") = false := by
          simpa [strTruthy] using hx
        cases h1 : (e.level == 1)
        · have hfind : specTocTitle (e :: rest) = specTocTitle rest := by
            unfold specTocTitle
            rw [List.find?_cons_of_neg]
            simp [h1]
          simp [hx, hxe, h1, hfind, ih]
        · have hfind : specTocTitle (e :: rest) = some (pyStrip e.text) := by
            unfold specTocTitle
            rw [List.find?_cons_of_pos _ (by simp [h1, hx])]
            rfl
          simp [hx, hxe, h1, hfind, optTruthy,
            tocLoop_of_title (pyStrip e.text) hx]

/-! ## Claims -/

/-- C5: the ToC normalizer maps levels 1/2/3 to H1/H2/H3, skips deeper
levels, consumes the first level-1 entry with non-empty trimmed text as the
title without adding it to the outline, and appends every other surviving
entry under its mapped level; in particular the scenario
`[(1,"Intro",1),(2,"Background",2),(4,"Skip",3)]` yields title `"Intro"` and
outline `[{H2, "Background", 2}]`. -/
theorem claim5_toc_normalizer :
    processToc [⟨1, "Intro", 1⟩, ⟨2, "Background", 2⟩, ⟨4, "Skip", 3⟩] none =
      ⟨"Intro", [⟨"H2", "Background", 2⟩]⟩ ∧
    ∀ (toc : List TocEntry) (metaTitle : Option String) (t : String),
      specTocTitle toc = some t →
      processToc toc metaTitle = ⟨t, specTocOutline false toc⟩ := by
  refine ⟨by decide, fun toc metaTitle t hft => ?_⟩
  have hst : strTruthy t = true := by
    unfold specTocTitle at hft
    cases hfe : toc.find? (fun e => e.level == 1 && strTruthy (pyStrip e.text)) with
    | none => rw [hfe] at hft; cases hft
    | some e =>
      rw [hfe] at hft
      have hp := List.find?_some hfe
      simp only [Option.map_some', Option.some.injEq] at hft
      rw [← hft]
      exact (Bool.and_eq_true_iff.mp hp).2
  unfold processToc
  rw [tocLoop_none_eq, hft]
  dsimp only
  rw [show optTruthy (some t) = true from hst]
  simp [strOr, hst]

theorem claim5_witness :
    specTocTitle [⟨1, "T", 1⟩, ⟨2, "S", 2⟩] = some "T" ∧
    processToc [⟨1, "T", 1⟩, ⟨2, "S", 2⟩] (some "M") =
      ⟨"T", specTocOutline false [⟨1, "T", 1⟩, ⟨2, "S", 2⟩]⟩ :=
  ⟨by decide, claim5_toc_normalizer.2 _ (some "M") "T" (by decide)⟩

/-- C7: whenever the parser reports a non-empty embedded outline, the
returned record equals the ToC normalizer's result, and the result does not
depend on the text spans (the heuristic path is never executed). -/
theorem claim7_toc_priority (d : Doc) (stem : String)
    (spans2 : List TextSpan) (h : d.toc ≠ []) :
    extractOutline d stem = processToc d.toc d.metaTitle ∧
    extractOutline ⟨d.toc, spans2, d.metaTitle⟩ stem = extractOutline d stem := by
  have he : d.toc.isEmpty = false := by
    cases hd : d.toc with
    | nil => exact absurd hd h
    | cons a l => rfl
  constructor <;> simp [extractOutline, he]

theorem claim7_witness :
    extractOutline ⟨[⟨1, "A", 1⟩], [], none⟩ "doc" = processToc [⟨1, "A", 1⟩] none ∧
    extractOutline ⟨[⟨1, "A", 1⟩], [⟨"X", 20, 0, 1⟩], none⟩ "doc" =
      extractOutline ⟨[⟨1, "A", 1⟩], [], none⟩ "doc" :=
  claim7_toc_priority ⟨[⟨1, "A", 1⟩], [], none⟩ "doc" [⟨"X", 20, 0, 1⟩]
    (by decide)

/-- C8: a document that fails to open (or whose processing raises) and a
document with no embedded outline and no text spans both yield exactly
`{title: stem, outline: []}`, and every input file yields exactly one output
record (no failure aborts the batch). -/
theorem claim8_error_isolation (files : List (String × Except Unit Doc)) :
    (processPdfs files).length = files.length ∧
    (∀ stem, (stem, Except.error ()) ∈ files →
      (stem, (⟨stem, []⟩ : OutlineRecord)) ∈ processPdfs files) ∧
    (∀ stem metaTitle, (stem, Except.ok (⟨[], [], metaTitle⟩ : Doc)) ∈ files →
      (stem, (⟨stem, []⟩ : OutlineRecord)) ∈ processPdfs files) := by
  refine ⟨List.length_map _ _, fun stem hmem => ?_, fun stem metaTitle hmem => ?_⟩
  · have h2 := List.mem_map_of_mem
      (fun f : String × Except Unit Doc => (f.1, extractOutlineTop f.2 f.1)) hmem
    simpa [processPdfs, extractOutlineTop] using h2
  · have h2 := List.mem_map_of_mem
      (fun f : String × Except Unit Doc => (f.1, extractOutlineTop f.2 f.1)) hmem
    simpa [processPdfs, extractOutlineTop, extractOutline] using h2

theorem claim8_witness :
    (processPdfs
      [("a", Except.error ()), ("b", Except.ok ⟨[], [], none⟩)]).length = 2 ∧
    ("a", (⟨"a", []⟩ : OutlineRecord)) ∈
      processPdfs [("a", Except.error ()), ("b", Except.ok ⟨[], [], none⟩)] ∧
    ("b", (⟨"b", []⟩ : OutlineRecord)) ∈
      processPdfs [("a", Except.error ()), ("b", Except.ok ⟨[], [], none⟩)] :=
  ⟨(claim8_error_isolation _).1,
   (claim8_error_isolation _).2.1 "a" (List.Mem.head _),
   (claim8_error_isolation _).2.2 "b" none (List.Mem.tail _ (List.Mem.head _))⟩

/-- C9: per-document extraction is deterministic: identical parsed input and
identical file stem give identical records. -/
theorem claim9_deterministic (d1 d2 : Doc) (s1 s2 : String)
    (h1 : d1 = d2) (h2 : s1 = s2) :
    extractOutline d1 s1 = extractOutline d2 s2 := by
  rw [h1, h2]

theorem claim9_witness :
    extractOutline ⟨[], [], none⟩ "a" = extractOutline ⟨[], [], none⟩ "a" :=
  claim9_deterministic ⟨[], [], none⟩ ⟨[], [], none⟩ "a" "a" rfl rfl

/-- C10: once a (non-empty) title has been captured in the heuristic loop, a
later span classified TITLE contributes nothing: it neither replaces the
title nor is appended to the headings. -/
theorem claim10_later_title_dropped (avgSize : Rat) (allSizes : List Rat)
    (t : String) (s : TextSpan) (rest : List TextSpan) (ht : t ≠ "")
    (hc : classifyHeadingLevel s.text s.size allSizes = some "TITLE") :
    spanLoop avgSize allSizes (some t) (s :: rest) =
      spanLoop avgSize allSizes (some t) rest := by
  have hT : optTruthy (some t) = true := by
    simp [optTruthy, strTruthy, ht]
  cases hl : isLikelyHeading s.text s.size s.flags avgSize
  · simp [spanLoop, hl]
  · simp [spanLoop, hl, hc, hT, List.contains]

theorem claim10_witness :
    spanLoop 12 [20, 14, 12] (some "My Report") [⟨"My Report", 20, 0, 1⟩] =
      spanLoop 12 [20, 14, 12] (some "My Report") [] :=
  claim10_later_title_dropped 12 [20, 14, 12] "My Report"
    ⟨"My Report", 20, 0, 1⟩ [] (by decide) (by decide)

/-- C1 (amended): the deduplication invariant holds for the heuristic path
whenever no TITLE candidate was captured (the H1-fallback/stem branch): the
chosen title's text never appears in the outline as an H1 entry with
identical text.  (The ToC path and the heuristic TITLE branch do not
deduplicate; see the counterexample.) -/
theorem claim1_dedup_fallback (spans : List TextSpan) (stem : String)
    (metaTitle : Option String)
    (h : optTruthy (heuristicState spans).1 = false) :
    ((extractOutline ⟨[], spans, metaTitle⟩ stem).outline.all
      (fun x => !(x.level == "H1" &&
        x.text == (extractOutline ⟨[], spans, metaTitle⟩ stem).title))) =
      true := by
  cases hs : spans.isEmpty
  case true =>
    have hnil : spans = [] := List.isEmpty_iff.mp hs
    subst hnil
    simp [extractOutline]
  case false =>
    have hrec : extractOutline ⟨[], spans, metaTitle⟩ stem =
        heuristicRecord spans stem := by
      simp [extractOutline, hs]
    rw [hrec, List.all_eq_true]
    intro x hx
    unfold heuristicRecord at hx ⊢
    cases hf : (heuristicState spans).2.filter (fun y => y.level == "H1") with
    | nil =>
      simp only [h, hf, Bool.false_eq_true, if_false] at hx ⊢
      have hx2 : x ∈ (heuristicState spans).2 := mem_sortByPage.mp hx
      by_cases hlvl : (x.level == "H1") = true
      · exfalso
        have hmem : x ∈ (heuristicState spans).2.filter
            (fun y => y.level == "H1") :=
          List.mem_filter.mpr ⟨hx2, hlvl⟩
        rw [hf] at hmem
        exact absurd hmem (List.not_mem_nil x)
      · simp [hlvl]
    | cons h0 tl =>
      simp only [h, hf, Bool.false_eq_true, if_false] at hx ⊢
      have hx2 := mem_sortByPage.mp hx
      have hp := (List.mem_filter.mp hx2).2
      simpa using hp

theorem claim1_witness :
    ((extractOutline ⟨[], spansC6, none⟩ "doc").outline.all
      (fun x => !(x.level == "H1" &&
        x.text == (extractOutline ⟨[], spansC6, none⟩ "doc").title))) = true :=
  claim1_dedup_fallback spansC6 "doc" none (by decide)

/-- C2 (amended): records produced by the heuristic path are sorted by
non-decreasing page, and the sort is stable: for every page the sub-sequence
of entries on that page equals the corresponding sub-sequence of the
pre-sort (discovery-ordered) surviving headings.  (The ToC path emits the
embedded outline in its own order; see the counterexample.) -/
theorem claim2_heuristic_sorted (spans : List TextSpan) (stem : String)
    (metaTitle : Option String) :
    List.Pairwise (fun a b => a.page ≤ b.page)
      (extractOutline ⟨[], spans, metaTitle⟩ stem).outline ∧
    ∀ p, ((extractOutline ⟨[], spans, metaTitle⟩ stem).outline.filter
        (fun h => h.page == p)) =
      (survivingHeadings spans).filter (fun h => h.page == p) := by
  cases hs : spans.isEmpty
  case true =>
    have hnil : spans = [] := List.isEmpty_iff.mp hs
    subst hnil
    have hsv : survivingHeadings [] = [] := rfl
    refine ⟨?_, fun p => ?_⟩ <;> simp [extractOutline, hsv]
  case false =>
    have hrec : extractOutline ⟨[], spans, metaTitle⟩ stem =
        heuristicRecord spans stem := by
      simp [extractOutline, hs]
    rw [hrec, heuristicRecord_outline]
    exact ⟨sorted_sortByPage _, fun p => filter_sortByPage _ p⟩

/-- C6 (amended): when no TITLE candidate exists and some H1 candidate does,
the first H1 candidate's text becomes the title; the fallback then removes
every H1 entry whose text equals the title (all duplicates, not just that
one entry), and every other collected candidate remains in the outline. -/
theorem claim6_h1_fallback (spans : List TextSpan) (stem : String)
    (h0 : Heading) (tl : List Heading)
    (ht : optTruthy (heuristicState spans).1 = false)
    (hf : (heuristicState spans).2.filter (fun x => x.level == "H1") =
      h0 :: tl) :
    (heuristicRecord spans stem).title = h0.text ∧
    ((heuristicState spans).2.all (fun x =>
      (x.level == "H1" && x.text == h0.text) ||
      (heuristicRecord spans stem).outline.contains x)) = true ∧
    ((heuristicRecord spans stem).outline.all
      (fun x => (heuristicState spans).2.contains x)) = true := by
  have hrec : heuristicRecord spans stem =
      ⟨h0.text, sortByPage ((heuristicState spans).2.filter
        (fun x => !(x.level == "H1" && x.text == h0.text)))⟩ := by
    unfold heuristicRecord
    simp only [ht, hf, Bool.false_eq_true, if_false]
  rw [hrec]
  refine ⟨rfl, ?_, ?_⟩
  · rw [List.all_eq_true]
    intro x hx
    by_cases hp : (x.level == "H1" && x.text == h0.text) = true
    · simp [hp]
    · have hb : (!(x.level == "H1" && x.text == h0.text)) = true := by
        simp only [Bool.not_eq_true] at hp
        simp [hp]
      have hmem : x ∈ sortByPage ((heuristicState spans).2.filter
          (fun y => !(y.level == "H1" && y.text == h0.text))) :=
        mem_sortByPage.mpr (List.mem_filter.mpr ⟨hx, hb⟩)
      simp only [Bool.or_eq_true]
      right
      exact List.elem_eq_true_of_mem hmem
  · rw [List.all_eq_true]
    intro x hx
    have hx2 := (List.mem_filter.mp (mem_sortByPage.mp hx)).1
    exact List.elem_eq_true_of_mem hx2

theorem claim6_witness :
    (heuristicRecord spansC6 "doc").title =
      (⟨"H1", "1. Scope", 1⟩ : Heading).text ∧
    ((heuristicState spansC6).2.all (fun x =>
      (x.level == "H1" && x.text == (⟨"H1", "1. Scope", 1⟩ : Heading).text) ||
      (heuristicRecord spansC6 "doc").outline.contains x)) = true ∧
    ((heuristicRecord spansC6 "doc").outline.all
      (fun x => (heuristicState spansC6).2.contains x)) = true :=
  claim6_h1_fallback spansC6 "doc" ⟨"H1", "1. Scope", 1⟩
    [⟨"H1", "1. Scope", 2⟩] (by decide) (by decide)

/-- C3: the heading-candidate detector returns true exactly when the trimmed
text length is between 3 and 200 characters inclusive, a sentence-punctuation
ending is overridden only by one of the six numbering patterns, and
`(size > mean*1.1 AND bold) OR pattern match OR size > mean*1.3`. -/
theorem claim3_detector_iff (text : String) (size : Rat) (flags : Nat)
    (avgSize : Rat) :
    isLikelyHeading text size flags avgSize = true ↔
      ((3 ≤ (pyStripList text.toList).length ∧
        (pyStripList text.toList).length ≤ 200) ∧
       (endsSentencePunct (pyStripList text.toList) = true →
        headingPatternsSix (pyStripList text.toList) = true) ∧
       ((avgSize * (11 / 10) < size ∧ isBoldFlags flags = true) ∨
        headingPatternsAll (pyStripList text.toList) = true ∨
        avgSize * (13 / 10) < size)) := by
  unfold isLikelyHeading
  dsimp only
  split
  next h1 =>
    simp only [Bool.or_eq_true, decide_eq_true_eq] at h1
    constructor
    · intro hf
      exact absurd hf (by simp)
    · rintro ⟨⟨hl, hr⟩, -, -⟩
      exfalso
      omega
  next h1 =>
    simp only [Bool.or_eq_true, decide_eq_true_eq, not_or, not_lt] at h1
    obtain ⟨hl3, hl200⟩ := h1
    split
    next h2 =>
      simp only [Bool.and_eq_true, Bool.not_eq_true'] at h2
      constructor
      · intro hf
        exact absurd hf (by simp)
      · rintro ⟨-, himp, -⟩
        rw [himp h2.1] at h2
        exact absurd h2.2 (by simp)
    next h2 =>
      have himp : endsSentencePunct (pyStripList text.toList) = true →
          headingPatternsSix (pyStripList text.toList) = true := by
        intro he
        cases hsix : headingPatternsSix (pyStripList text.toList)
        · exfalso
          apply h2
          rw [he, hsix]
          rfl
        · rfl
      constructor
      · intro hacc
        refine ⟨⟨hl3, hl200⟩, himp, ?_⟩
        simpa only [Bool.or_eq_true, Bool.and_eq_true, decide_eq_true_eq,
          or_assoc] using hacc
      · rintro ⟨-, -, hacc⟩
        simpa only [Bool.or_eq_true, Bool.and_eq_true, decide_eq_true_eq,
          or_assoc] using hacc

/-- C4 (amended): the TITLE branch applies a mode-specific sub-pattern: in
absolute-threshold mode (fewer than 3 distinct sizes) it requires the
`_looks_like_title` check (≤10 words, no leading `digits.`, no leading
`Chapter`/`Section`/`Part`); in rank-based mode it instead requires the
inline check (≤10 words, no literal `1.`/`2.`/`3.`/`Chapter`/`Section`
prefix, and no `digits.digits` prefix) — the two checks differ (see the
counterexample for a text accepted by one and rejected by the other). -/
theorem claim4_title_subpattern (text : String) (size : Rat)
    (allSizes : List Rat)
    (h : classifyHeadingLevel text size allSizes = some "TITLE") :
    (3 ≤ (uniqueSizesDesc allSizes).length ∧
      rankTitleCheck (pyStripList text.toList) = true) ∨
    ((uniqueSizesDesc allSizes).length < 3 ∧
      looksLikeTitle (pyStripList text.toList) = true) := by
  unfold classifyHeadingLevel at h
  by_cases hm : 3 ≤ (uniqueSizesDesc allSizes).length
  · left
    refine ⟨hm, ?_⟩
    rw [if_pos hm] at h
    split at h
    next hc =>
      simp only [Bool.and_eq_true] at hc
      exact hc.2
    next =>
      split at h
      next => simp at h
      next =>
        split at h
        next => simp at h
        next =>
          split at h
          next => simp at h
          next => simp at h
  · right
    refine ⟨by omega, ?_⟩
    rw [if_neg hm] at h
    split at h
    next hc =>
      simp only [Bool.and_eq_true] at hc
      exact hc.2
    next =>
      split at h
      next => simp at h
      next =>
        split at h
        next => simp at h
        next =>
          split at h
          next => simp at h
          next => simp at h

theorem claim4_witness :
    (3 ≤ (uniqueSizesDesc [20, 14, 12]).length ∧
      rankTitleCheck (pyStripList "My Report".toList) = true) ∨
    ((uniqueSizesDesc [20, 14, 12]).length < 3 ∧
      looksLikeTitle (pyStripList "My Report".toList) = true) :=
  claim4_title_subpattern "My Report" 20 [20, 14, 12] (by decide)

/-- C1 counterexample: in the ToC path a later level-1 entry with the same
text as the captured title stays in the outline as an H1 entry, and in the
heuristic path a TITLE hit does not deduplicate an identical H1 hit; in both
records the title appears in `outline` at level H1 with identical text. -/
theorem claim1_cex :
    extractOutline ⟨[⟨1, "A", 1⟩, ⟨1, "A", 2⟩], [], none⟩ "doc" =
      ⟨"A", [⟨"H1", "A", 2⟩]⟩ ∧
    ((extractOutline ⟨[⟨1, "A", 1⟩, ⟨1, "A", 2⟩], [], none⟩ "doc").outline.any
      (fun x => x.level == "H1" &&
        x.text ==
          (extractOutline ⟨[⟨1, "A", 1⟩, ⟨1, "A", 2⟩], [], none⟩ "doc").title)) =
      true ∧
    extractOutline
        ⟨[], [⟨"INTRODUCTION", 20, 0, 1⟩, ⟨"INTRODUCTION", 14, 0, 1⟩], none⟩
        "doc" =
      ⟨"INTRODUCTION", [⟨"H1", "INTRODUCTION", 1⟩]⟩ ∧
    ((extractOutline
        ⟨[], [⟨"INTRODUCTION", 20, 0, 1⟩, ⟨"INTRODUCTION", 14, 0, 1⟩], none⟩
        "doc").outline.any
      (fun x => x.level == "H1" &&
        x.text ==
          (extractOutline
            ⟨[], [⟨"INTRODUCTION", 20, 0, 1⟩, ⟨"INTRODUCTION", 14, 0, 1⟩],
              none⟩ "doc").title)) = true := by
  decide

/-- C2 counterexample: the ToC path emits the embedded outline in its own
order without sorting, so a ToC whose pages decrease yields a record whose
headings are not sorted by page. -/
theorem claim2_cex :
    extractOutline ⟨[⟨2, "B", 5⟩, ⟨2, "C", 1⟩], [], some "T"⟩ "doc" =
      ⟨"T", [⟨"H2", "B", 5⟩, ⟨"H2", "C", 1⟩]⟩ ∧
    ¬ List.Pairwise (fun a b => a.page ≤ b.page)
      (extractOutline ⟨[⟨2, "B", 5⟩, ⟨2, "C", 1⟩], [], some "T"⟩ "doc").outline := by
  refine ⟨by decide, fun hp => ?_⟩
  rw [show (extractOutline ⟨[⟨2, "B", 5⟩, ⟨2, "C", 1⟩], [], some "T"⟩
      "doc").outline = [⟨"H2", "B", 5⟩, ⟨"H2", "C", 1⟩] from by decide] at hp
  exact absurd (List.rel_of_pairwise_cons hp (List.mem_cons_self _ _))
    (by decide)

/-- C4 counterexample: in rank-based mode the TITLE branch accepts
`"4. Overview"`, which starts with a decimal-numbering prefix and therefore
fails the title sub-pattern used by the absolute-threshold mode. -/
theorem claim4_cex :
    classifyHeadingLevel "4. Overview" 20 [20, 14, 12] = some "TITLE" ∧
    looksLikeTitle (pyStripList "4. Overview".toList) = false ∧
    preDigitsDot (pyStripList "4. Overview".toList) = true := by
  decide

/-- C6 counterexample: with two identical H1 candidates and no TITLE
candidate, the fallback removes BOTH entries matching the title text, so a
collected candidate other than the promoted one does not remain. -/
theorem claim6_cex :
    heuristicState spansC6 =
      (none, [⟨"H1", "1. Scope", 1⟩, ⟨"H1", "1. Scope", 2⟩]) ∧
    extractOutline ⟨[], spansC6, none⟩ "doc" = ⟨"1. Scope", []⟩ := by
  decide

end PdfOutline
